import Mathlib

/-!
Shallow embedding of `src/procore-lv-inventory.js` (stonecoldkat/SCK):
the inventory record store (`LVInventoryItem`, `LVInventoryManager`) and the
purchase-order reconciliation engine (`ProcoreSyncManager`).

Modelling conventions:
- JS numbers used as quantities/costs are modelled as `Int` (all claims are
  about exact integer arithmetic).
- JS strings are Lean `String`; `s.toLowerCase()` is `String.toLower`;
  `s.includes(t)` is `jsIncludes s t` (substring occurrence, defined below).
- A thrown `Error` is `Except.error` carrying the message string.
- `Date` timestamps are `Nat` values passed in explicitly (`now`).
- A JS field that may be absent/empty is modelled by its falsy default:
  `""` for strings, `0` for numbers, matching the `x || default` idiom.
-/

set_option autoImplicit false

namespace SCK

/-- `isHeadOf pat s` : `pat` is a prefix of the character list `s`.
Building block for the JS `String.prototype.includes` model. -/
def isHeadOf : List Char → List Char → Bool
  | [], _ => true
  | _ :: _, [] => false
  | c :: p, d :: s => c == d && isHeadOf p s

/-- `occursIn pat s` : `pat` occurs as a contiguous sublist of `s`. -/
def occursIn (pat : List Char) : List Char → Bool
  | [] => pat.isEmpty
  | d :: s => isHeadOf pat (d :: s) || occursIn pat s

/-- Model of JS `haystack.includes(needle)`. -/
def jsIncludes (haystack needle : String) : Bool :=
  occursIn needle.data haystack.data

/-- Model of JS `s.toLowerCase()`: `Char.toLower` on every character (the
repository only compares ASCII keywords). -/
def jsToLower (s : String) : String :=
  ⟨s.data.map Char.toLower⟩

theorem isHeadOf_iff (pat s : List Char) :
    isHeadOf pat s = true ↔ ∃ t, s = pat ++ t := by
  induction pat generalizing s with
  | nil => simp [isHeadOf]
  | cons c p ih =>
    cases s with
    | nil => simp [isHeadOf]
    | cons d s =>
      simp only [isHeadOf, Bool.and_eq_true, beq_iff_eq, ih, List.cons_append,
        List.cons.injEq]
      constructor
      · rintro ⟨rfl, t, rfl⟩
        exact ⟨t, rfl, rfl⟩
      · rintro ⟨t, rfl, rfl⟩
        exact ⟨rfl, t, rfl⟩

theorem occursIn_iff (pat s : List Char) :
    occursIn pat s = true ↔ ∃ u v, s = u ++ pat ++ v := by
  induction s with
  | nil =>
    simp only [occursIn, List.isEmpty_iff]
    constructor
    · rintro rfl
      exact ⟨[], [], rfl⟩
    · rintro ⟨u, v, h⟩
      rcases List.append_eq_nil.mp h.symm with ⟨h1, -⟩
      exact (List.append_eq_nil.mp h1).2
  | cons d s ih =>
    simp only [occursIn, Bool.or_eq_true, isHeadOf_iff, ih]
    constructor
    · rintro (⟨t, ht⟩ | ⟨u, v, huv⟩)
      · exact ⟨[], t, by simp [ht]⟩
      · exact ⟨d :: u, v, by simp [huv]⟩
    · rintro ⟨u, v, huv⟩
      cases u with
      | nil =>
        left
        exact ⟨v, by simpa using huv⟩
      | cons e u =>
        right
        simp only [List.cons_append, List.cons.injEq] at huv
        exact ⟨u, v, huv.2⟩

/-- The empty string occurs in every string (JS: `s.includes('') === true`). -/
theorem jsIncludes_empty (s : String) : jsIncludes s "" = true := by
  cases s with
  | mk data =>
    cases data with
    | nil => rfl
    | cons d t => simp [jsIncludes, occursIn, isHeadOf]

/-- `class LVInventoryItem` (src/procore-lv-inventory.js, lines 149-202).
Quantities and cost are `Int`; `lastUpdated` is a `Nat` timestamp.
`customFields`, `createdAt` and the nullable defaults are not needed by any
claim; absent string fields are `""` and absent numbers `0`, matching the
constructor's `data.x || default` fallbacks. -/
structure LVInventoryItem where
  id : String
  projectId : String
  category : String
  subCategory : String
  manufacturer : String
  partNumber : String
  description : String
  unitOfMeasure : String
  quantityAvailable : Int
  quantityAllocated : Int
  reorderThreshold : Int
  reorderQuantity : Int
  location : String
  cost : Int
  lastUpdated : Nat
deriving Repr, DecidableEq

/-- Getter `get totalQuantity()` (line 171): `quantityAvailable + quantityAllocated`. -/
def totalQuantity (item : LVInventoryItem) : Int :=
  item.quantityAvailable + item.quantityAllocated

/-- Getter `get needsReorder()` (line 176): `quantityAvailable <= reorderThreshold`. -/
def needsReorder (item : LVInventoryItem) : Bool :=
  item.quantityAvailable ≤ item.reorderThreshold

/-- Core of `LVInventoryManager.adjustQuantity` (lines 324-341): the update made
to the item the id lookup resolved to. `isAllocation = true` moves quantity
between `available` and `allocated`, throwing when a positive change exceeds
`quantityAvailable`; `isAllocation = false` adds to `available`, clamping a
negative result to zero. On success `lastUpdated` is set to `now`. -/
def adjustItem (item : LVInventoryItem) (quantityChange : Int) (isAllocation : Bool)
    (now : Nat) : Except String LVInventoryItem :=
  if isAllocation then
    if quantityChange > 0 ∧ item.quantityAvailable < quantityChange then
      .error "Cannot allocate more than available quantity"
    else
      .ok { item with
              quantityAvailable := item.quantityAvailable - quantityChange
              quantityAllocated := item.quantityAllocated + quantityChange
              lastUpdated := now }
  else
    let qa := item.quantityAvailable + quantityChange
    .ok { item with
            quantityAvailable := if qa < 0 then 0 else qa
            lastUpdated := now }

/-- `LVInventoryManager.adjustQuantity(itemId, quantityChange, isAllocation)`
(lines 318-342) over the manager's `items` array: finds the first item whose
`id` equals `itemId` (JS `Array.prototype.find`) and mutates it in place via
`adjustItem`; throws not-found when no id matches. -/
def adjustQuantity (items : List LVInventoryItem) (itemId : String)
    (quantityChange : Int) (isAllocation : Bool) (now : Nat) :
    Except String (List LVInventoryItem) :=
  match items with
  | [] => .error ("Item with ID " ++ itemId ++ " not found")
  | i :: rest =>
    if i.id == itemId then
      (adjustItem i quantityChange isAllocation now).map (· :: rest)
    else
      (adjustQuantity rest itemId quantityChange isAllocation now).map (i :: ·)

/-- One call to `adjustQuantity`, for reasoning about call sequences. -/
structure AdjustCall where
  itemId : String
  delta : Int
  isAllocation : Bool
  now : Nat
deriving Repr, DecidableEq

/-- Runs a sequence of `adjustQuantity` calls on the store. A call that throws
(`not found` or insufficient stock) leaves the store unchanged — in the JS the
exception propagates before any field is mutated — and the remaining calls
still run. -/
def applyCalls (items : List LVInventoryItem) : List AdjustCall → List LVInventoryItem
  | [] => items
  | c :: cs =>
    match adjustQuantity items c.itemId c.delta c.isAllocation c.now with
    | .ok items2 => applyCalls items2 cs
    | .error _ => applyCalls items cs

theorem applyCalls_cons (items : List LVInventoryItem) (c : AdjustCall)
    (cs : List AdjustCall) :
    applyCalls items (c :: cs) =
      match adjustQuantity items c.itemId c.delta c.isAllocation c.now with
      | .ok items2 => applyCalls items2 cs
      | .error _ => applyCalls items cs := rfl

/-- When the first item whose id matches sits at a known position, the manager
operation is the item operation lifted to the list. -/
theorem adjustQuantity_decomp (pre post : List LVInventoryItem) (r : LVInventoryItem)
    (itemId : String) (qc : Int) (alloc : Bool) (now : Nat)
    (hpre : ∀ x ∈ pre, (x.id == itemId) = false) (hr : (r.id == itemId) = true) :
    adjustQuantity (pre ++ r :: post) itemId qc alloc now =
      (adjustItem r qc alloc now).map (fun r2 => pre ++ r2 :: post) := by
  induction pre with
  | nil =>
    simp only [List.nil_append, adjustQuantity, hr, if_true]
  | cons x pre ih =>
    have hx := hpre x (by simp)
    simp only [List.cons_append, adjustQuantity, hx, Bool.false_eq_true, if_false,
      List.append_eq]
    rw [ih (fun y hy => hpre y (by simp [hy]))]
    cases adjustItem r qc alloc now <;> rfl

/-- Every item of a successfully adjusted store is an original item or the
`adjustItem` image of an original item. -/
theorem adjustQuantity_mem (items : List LVInventoryItem) (itemId : String) (qc : Int)
    (alloc : Bool) (now : Nat) (items2 : List LVInventoryItem)
    (h : adjustQuantity items itemId qc alloc now = .ok items2) :
    ∀ y ∈ items2, y ∈ items ∨ ∃ x ∈ items, adjustItem x qc alloc now = .ok y := by
  induction items generalizing items2 with
  | nil => simp [adjustQuantity] at h
  | cons i rest ih =>
    simp only [adjustQuantity] at h
    split at h
    · cases hadj : adjustItem i qc alloc now with
      | error e => rw [hadj] at h; simp [Except.map] at h
      | ok r2 =>
        rw [hadj] at h
        simp only [Except.map, Except.ok.injEq] at h
        subst h
        intro y hy
        rcases List.mem_cons.mp hy with rfl | hy
        · exact Or.inr ⟨i, by simp, hadj⟩
        · exact Or.inl (by simp [hy])
    · cases hrec : adjustQuantity rest itemId qc alloc now with
      | error e => rw [hrec] at h; simp [Except.map] at h
      | ok rest2 =>
        rw [hrec] at h
        simp only [Except.map, Except.ok.injEq] at h
        subst h
        intro y hy
        rcases List.mem_cons.mp hy with rfl | hy
        · exact Or.inl (by simp)
        · rcases ih rest2 hrec y hy with h1 | ⟨x, hx, hx2⟩
          · exact Or.inl (by simp [h1])
          · exact Or.inr ⟨x, by simp [hx], hx2⟩

/-- A successful `adjustItem` keeps `quantityAvailable` non-negative. -/
theorem adjustItem_available_nonneg (item : LVInventoryItem) (qc : Int) (alloc : Bool)
    (now : Nat) (r2 : LVInventoryItem) (h0 : 0 ≤ item.quantityAvailable)
    (h : adjustItem item qc alloc now = .ok r2) : 0 ≤ r2.quantityAvailable := by
  cases alloc with
  | false =>
    simp only [adjustItem, Bool.false_eq_true, if_false, Except.ok.injEq] at h
    subst h
    show 0 ≤ (if item.quantityAvailable + qc < 0 then 0 else item.quantityAvailable + qc)
    split <;> omega
  | true =>
    simp only [adjustItem, if_true] at h
    split at h
    · exact absurd h (by simp)
    · rename_i hcond
      simp only [Except.ok.injEq] at h
      subst h
      show 0 ≤ item.quantityAvailable - qc
      omega

/-- A fresh record with zero stock (shape an approved-PO sync would create). -/
def itemA : LVInventoryItem :=
  { id := "1", projectId := "p", category := "Cable", subCategory := ""
    manufacturer := "", partNumber := "", description := "Cat6 cable"
    unitOfMeasure := "Each", quantityAvailable := 0, quantityAllocated := 0
    reorderThreshold := 0, reorderQuantity := 0, location := "", cost := 0
    lastUpdated := 0 }

/-- C1 counterexample: `adjustQuantity` in allocation mode does not check
negative deltas against `quantityAllocated`, so one call with delta `-1` on a
record with `quantityAllocated = 0` drives `quantityAllocated` to `-1`: the
claim that both quantity fields stay non-negative after any sequence of
`adjustQuantity` calls is false. -/
theorem C1_counterexample :
    ¬ (∀ i ∈ applyCalls [itemA] [⟨"1", -1, true, 1⟩],
        0 ≤ i.quantityAvailable ∧ 0 ≤ i.quantityAllocated) := by
  decide

/-- C1 (amended): after any finite sequence of `adjustQuantity` calls (either
mode, any integer deltas), `quantityAvailable ≥ 0` holds on every record,
provided every record started with `quantityAvailable ≥ 0`; the analogous
bound for `quantityAllocated` does not hold. -/
theorem C1_available_nonneg (init : List LVInventoryItem) (calls : List AdjustCall)
    (h : ∀ i ∈ init, 0 ≤ i.quantityAvailable) :
    ∀ i ∈ applyCalls init calls, 0 ≤ i.quantityAvailable := by
  induction calls generalizing init with
  | nil => simpa [applyCalls] using h
  | cons c cs ih =>
    rw [applyCalls_cons]
    cases hadj : adjustQuantity init c.itemId c.delta c.isAllocation c.now with
    | error e => exact ih init h
    | ok items2 =>
      refine ih items2 ?_
      intro y hy
      rcases adjustQuantity_mem init c.itemId c.delta c.isAllocation c.now items2 hadj y hy
        with hmem | ⟨x, hx, hx2⟩
      · exact h y hmem
      · exact adjustItem_available_nonneg x c.delta c.isAllocation c.now y (h x hx) hx2

theorem C1_available_nonneg_witness :
    (∀ i ∈ [itemA], 0 ≤ i.quantityAvailable) ∧
    (∀ i ∈ applyCalls [itemA] [⟨"1", 5, false, 1⟩], 0 ≤ i.quantityAvailable) :=
  ⟨by decide, C1_available_nonneg [itemA] [⟨"1", 5, false, 1⟩] (by decide)⟩

/-- C2: if `r` is the record `r.id` resolves to (no earlier item shares its id)
and `delta > r.quantityAvailable ≥ 0`, then allocation-mode `adjustQuantity`
throws the insufficient-stock error and the store — `r`'s quantity fields and
`lastUpdated` included — is exactly what it was before the call. -/
theorem C2_allocation_insufficient (pre post : List LVInventoryItem)
    (r : LVInventoryItem) (delta : Int) (now : Nat)
    (hpre : ∀ x ∈ pre, (x.id == r.id) = false)
    (h0 : 0 ≤ r.quantityAvailable) (hd : r.quantityAvailable < delta) :
    adjustQuantity (pre ++ r :: post) r.id delta true now =
      .error "Cannot allocate more than available quantity" ∧
    applyCalls (pre ++ r :: post) [⟨r.id, delta, true, now⟩] = pre ++ r :: post := by
  have hdec := adjustQuantity_decomp pre post r r.id delta true now hpre (by simp)
  have herr : adjustItem r delta true now =
      .error "Cannot allocate more than available quantity" := by
    simp only [adjustItem, if_true]
    rw [if_pos ⟨by omega, hd⟩]
  refine ⟨by rw [hdec, herr]; rfl, ?_⟩
  rw [applyCalls_cons]
  simp only [hdec, herr]
  rfl

theorem C2_witness :
    0 ≤ itemA.quantityAvailable ∧ itemA.quantityAvailable < 1 ∧
    adjustQuantity [itemA] itemA.id 1 true 0 =
      .error "Cannot allocate more than available quantity" ∧
    applyCalls [itemA] [⟨itemA.id, 1, true, 0⟩] = [itemA] :=
  ⟨by decide, by decide,
    C2_allocation_insufficient [] [] itemA 1 0 (by simp) (by decide) (by decide)⟩

/-- A record with three units available, none allocated. -/
def itemB : LVInventoryItem := { itemA with id := "2", quantityAvailable := 3 }

/-- C5: in stock mode `adjustQuantity` never throws, and whenever the sum
`quantityAvailable + delta` would be negative the result is silently clamped
to zero; instantiated at `quantityAvailable = 3`, `delta = -5` by the witness. -/
theorem C5_stock_clamps_to_zero (pre post : List LVInventoryItem)
    (r : LVInventoryItem) (delta : Int) (now : Nat)
    (hpre : ∀ x ∈ pre, (x.id == r.id) = false)
    (hneg : r.quantityAvailable + delta < 0) :
    adjustQuantity (pre ++ r :: post) r.id delta false now =
      .ok (pre ++ { r with quantityAvailable := 0, lastUpdated := now } :: post) := by
  have hdec := adjustQuantity_decomp pre post r r.id delta false now hpre (by simp)
  rw [hdec]
  simp only [adjustItem, Bool.false_eq_true, if_false, if_pos hneg]
  rfl

theorem C5_witness :
    itemB.quantityAvailable = 3 ∧ itemB.quantityAvailable + (-5) < 0 ∧
    adjustQuantity [itemB] itemB.id (-5) false 7 =
      .ok [{ itemB with quantityAvailable := 0, lastUpdated := 7 }] :=
  ⟨by decide, by decide, C5_stock_clamps_to_zero [] [] itemB (-5) 7 (by simp) (by decide)⟩

/-- C6: a successful allocation-mode `adjustItem` call preserves the record's
`totalQuantity` (it moves `delta` from `available` to `allocated`). -/
theorem C6_allocation_preserves_total (r : LVInventoryItem) (delta : Int) (now : Nat)
    (r2 : LVInventoryItem) (h : adjustItem r delta true now = .ok r2) :
    totalQuantity r2 = totalQuantity r := by
  simp only [adjustItem, if_true] at h
  split at h
  · exact absurd h (by simp)
  · simp only [Except.ok.injEq] at h
    subst h
    show r.quantityAvailable - delta + (r.quantityAllocated + delta) =
      r.quantityAvailable + r.quantityAllocated
    omega

theorem C6_witness :
    adjustItem itemB 2 true 5 =
      .ok { itemB with quantityAvailable := 1, quantityAllocated := 2, lastUpdated := 5 } ∧
    totalQuantity { itemB with quantityAvailable := 1, quantityAllocated := 2, lastUpdated := 5 } =
      totalQuantity itemB := by
  have h : adjustItem itemB 2 true 5 =
      .ok { itemB with quantityAvailable := 1, quantityAllocated := 2, lastUpdated := 5 } := by
    rfl
  exact ⟨h, C6_allocation_preserves_total itemB 2 5 _ h⟩

/-- C7: `needsReorder` is true iff `quantityAvailable ≤ reorderThreshold`, and
in particular it is true at the boundary `quantityAvailable = reorderThreshold`. -/
theorem C7_needsReorder_iff (item : LVInventoryItem) :
    (needsReorder item = true ↔ item.quantityAvailable ≤ item.reorderThreshold) ∧
    (item.quantityAvailable = item.reorderThreshold → needsReorder item = true) := by
  refine ⟨by simp [needsReorder], fun h => by simp [needsReorder, h]⟩

/-- A record sitting exactly at its reorder threshold. -/
def itemC : LVInventoryItem :=
  { itemA with id := "3", quantityAvailable := 5, reorderThreshold := 5 }

theorem C7_witness : needsReorder itemC = true :=
  (C7_needsReorder_iff itemC).2 rfl

/-- A JS field value as `searchItems` reads it off a record: string fields
stay strings, numeric fields are numbers. -/
inductive FieldValue where
  | str (s : String)
  | num (n : Int)
deriving Repr, DecidableEq

/-- JS truthiness test `!item[key]`: the empty string and zero are falsy. -/
def FieldValue.falsy : FieldValue → Bool
  | .str s => s == ""
  | .num n => n == 0

/-- JS `item[key].toString()`. -/
def FieldValue.jsToString : FieldValue → String
  | .str s => s
  | .num n => toString n

/-- The record fields a criteria key of `searchItems` can name. -/
inductive FieldKey where
  | id | projectId | category | subCategory | manufacturer | partNumber
  | description | unitOfMeasure | quantityAvailable | quantityAllocated
  | reorderThreshold | reorderQuantity | location | cost
deriving Repr, DecidableEq

/-- JS property lookup `item[key]` for the searchable fields. -/
def getField (item : LVInventoryItem) : FieldKey → FieldValue
  | .id => .str item.id
  | .projectId => .str item.projectId
  | .category => .str item.category
  | .subCategory => .str item.subCategory
  | .manufacturer => .str item.manufacturer
  | .partNumber => .str item.partNumber
  | .description => .str item.description
  | .unitOfMeasure => .str item.unitOfMeasure
  | .quantityAvailable => .num item.quantityAvailable
  | .quantityAllocated => .num item.quantityAllocated
  | .reorderThreshold => .num item.reorderThreshold
  | .reorderQuantity => .num item.reorderQuantity
  | .location => .str item.location
  | .cost => .num item.cost

/-- Inner loop of `LVInventoryManager.searchItems` (lines 351-358): an item
passes when for every criteria entry the field is truthy and its string form
contains the criteria value, case-insensitively. -/
def matchesCriteria (criteria : List (FieldKey × String)) (item : LVInventoryItem) : Bool :=
  criteria.all fun kv =>
    !(getField item kv.1).falsy &&
      jsIncludes (jsToLower (getField item kv.1).jsToString) (jsToLower kv.2)

/-- `LVInventoryManager.searchItems(criteria)` (lines 350-359). -/
def searchItems (items : List LVInventoryItem)
    (criteria : List (FieldKey × String)) : List LVInventoryItem :=
  items.filter (matchesCriteria criteria)

/-- Result of `generateInventoryReport`; `byCategory` is the insertion-ordered
category → (count, value) map, `items` the filtered records the report covers. -/
structure InventoryReport where
  totalItems : Nat
  totalValue : Int
  lowStockItems : Nat
  byCategory : List (String × Nat × Int)
  items : List LVInventoryItem
deriving Repr, DecidableEq

/-- `byCategory[cat] = byCategory[cat] || {count: 0, value: 0}` followed by
`count++` and `value += v` (lines 378-382), on an association list. -/
def bumpCategory : List (String × Nat × Int) → String → Int → List (String × Nat × Int)
  | [], cat, v => [(cat, 1, v)]
  | e :: rest, cat, v =>
    if e.1 == cat then (e.1, e.2.1 + 1, e.2.2 + v) :: rest
    else e :: bumpCategory rest cat v

/-- `LVInventoryManager.generateInventoryReport(filters)` (lines 362-391):
filters through `searchItems` when any filter is given, then aggregates. -/
def generateInventoryReport (items : List LVInventoryItem)
    (filters : List (FieldKey × String)) : InventoryReport :=
  let reportItems := if filters.isEmpty then items else searchItems items filters
  { totalItems := reportItems.length
    totalValue := reportItems.foldl (fun sum item => sum + item.cost * totalQuantity item) 0
    lowStockItems := (reportItems.filter (fun item => needsReorder item)).length
    byCategory := reportItems.foldl
      (fun m item => bumpCategory m item.category (item.cost * totalQuantity item)) []
    items := reportItems }

theorem foldl_add_map_sum {α : Type} (f : α → Int) (l : List α) (a : Int) :
    l.foldl (fun s x => s + f x) a = a + (l.map f).sum := by
  induction l generalizing a with
  | nil => simp
  | cons x l ih => simp [ih, add_assoc]

/-- The three records of C8's concrete scenario: costs 10, 20, 30 and total
quantities 1, 2, 1. -/
def reportItem1 : LVInventoryItem :=
  { itemA with id := "r1", cost := 10, quantityAvailable := 1, quantityAllocated := 0 }

def reportItem2 : LVInventoryItem :=
  { itemA with id := "r2", cost := 20, quantityAvailable := 1, quantityAllocated := 1 }

def reportItem3 : LVInventoryItem :=
  { itemA with id := "r3", cost := 30, quantityAvailable := 0, quantityAllocated := 1 }

/-- C8: for every record set and filter, the report's `totalValue` is the sum
of `cost * totalQuantity` over exactly the (filtered) records it reports; and
over the three records with costs 10, 20, 30 and total quantities 1, 2, 1 the
total value is 80. -/
theorem C8_totalValue :
    (∀ (items : List LVInventoryItem) (filters : List (FieldKey × String)),
      (generateInventoryReport items filters).totalValue =
        ((generateInventoryReport items filters).items.map
          (fun item => item.cost * totalQuantity item)).sum) ∧
    (generateInventoryReport [reportItem1, reportItem2, reportItem3] []).totalValue = 80 := by
  constructor
  · intro items filters
    simp only [generateInventoryReport]
    rw [foldl_add_map_sum, zero_add]
  · rfl

/-- C10: a search-criteria entry `(k, v)` — `v` may even be the empty string —
excludes every record whose field `k` is falsy (empty string or zero):
`searchItems` drops the record, and `generateInventoryReport` run with those
filters does not report it either. -/
theorem C10_falsy_field_excluded (items : List LVInventoryItem)
    (criteria : List (FieldKey × String)) (k : FieldKey) (v : String)
    (hk : (k, v) ∈ criteria) (r : LVInventoryItem)
    (hr : (getField r k).falsy = true) :
    r ∉ searchItems items criteria ∧
    r ∉ (generateInventoryReport items criteria).items := by
  have hpred : matchesCriteria criteria r = false := by
    cases hall : matchesCriteria criteria r with
    | false => rfl
    | true =>
      have := List.all_eq_true.mp hall (k, v) hk
      rw [hr] at this
      simp at this
  have hnotin : r ∉ searchItems items criteria := by
    intro hmem
    have := (List.mem_filter.mp hmem).2
    rw [hpred] at this
    exact Bool.false_ne_true this
  have hne : criteria.isEmpty = false := by
    cases criteria with
    | nil => cases hk
    | cons a l => rfl
  refine ⟨hnotin, ?_⟩
  simp only [generateInventoryReport, hne, Bool.false_eq_true, if_false]
  exact hnotin

theorem C10_witness :
    (FieldKey.partNumber, "x") ∈ [(FieldKey.partNumber, "x")] ∧
    (getField itemA FieldKey.partNumber).falsy = true ∧
    (itemA ∉ searchItems [itemA] [(FieldKey.partNumber, "x")] ∧
      itemA ∉ (generateInventoryReport [itemA] [(FieldKey.partNumber, "x")]).items) :=
  ⟨by simp, by decide,
    C10_falsy_field_excluded [itemA] [(FieldKey.partNumber, "x")] FieldKey.partNumber "x"
      (by simp) itemA (by decide)⟩

/-- A Procore purchase-order line item as the sync reads it (external,
read-only input). Absent `part_number`, `manufacturer` and `unit` are `""`;
absent `received_quantity` and `unit_cost` are `0`, matching the JS falsy
fallbacks (`lineItem.received_quantity || 0`, `lineItem.unit || 'Each'`, ...). -/
structure POLineItem where
  description : String
  part_number : String
  manufacturer : String
  quantity : Int
  received_quantity : Int
  unit : String
  unit_cost : Int
deriving Repr, DecidableEq

/-- A Procore purchase order together with its fetched line items. -/
structure PurchaseOrder where
  id : String
  title : String
  description : String
  status : String
  lineItems : List POLineItem
deriving Repr, DecidableEq

/-- Keyword list of `isLowVoltagePO` (line 1286). -/
def lvKeywords : List String :=
  ["low voltage", "lv", "communications", "data", "telecom", "network", "cable"]

/-- `ProcoreSyncManager.isLowVoltagePO(po)` (lines 1284-1293): some keyword
occurs in the lower-cased title or description. -/
def isLowVoltagePO (po : PurchaseOrder) : Bool :=
  lvKeywords.any fun keyword =>
    jsIncludes (jsToLower po.title) keyword || jsIncludes (jsToLower po.description) keyword

/-- Body of the arrow function inside `findMatchingInventoryItem`
(lines 1298-1301): part numbers equal (line item's non-empty), or the record's
description contains the line item's description, case-insensitively. -/
def matchesLine (lineItem : POLineItem) (item : LVInventoryItem) : Bool :=
  (lineItem.part_number != "" && item.partNumber == lineItem.part_number) ||
    jsIncludes (jsToLower item.description) (jsToLower lineItem.description)

/-- `ProcoreSyncManager.findMatchingInventoryItem(lineItem)` (lines 1296-1302):
JS `Array.prototype.find` over the manager's items. -/
def findMatchingInventoryItem (items : List LVInventoryItem)
    (lineItem : POLineItem) : Option LVInventoryItem :=
  items.find? (matchesLine lineItem)

/-- `ProcoreSyncManager.determineCategoryFromDescription` (lines 1327-1344):
first matching keyword rule wins, in the fixed source order. -/
def determineCategoryFromDescription (description : String) : String :=
  let desc := jsToLower description
  if jsIncludes desc "cable" || jsIncludes desc "wire" then "Cable"
  else if jsIncludes desc "connector" || jsIncludes desc "terminal" then "Connectors"
  else if jsIncludes desc "camera" || jsIncludes desc "sensor" then "Devices"
  else if jsIncludes desc "switch" || jsIncludes desc "router" ||
    jsIncludes desc "access point" then "Network Equipment"
  else if jsIncludes desc "card reader" || jsIncludes desc "door" then "Access Control"
  else if jsIncludes desc "speaker" || jsIncludes desc "microphone" ||
    jsIncludes desc "projector" then "Audio/Visual"
  else if jsIncludes desc "alarm" || jsIncludes desc "motion" ||
    jsIncludes desc "security" then "Security"
  else if jsIncludes desc "phone" || jsIncludes desc "telecom" then "Telecommunications"
  else if jsIncludes desc "fiber" then "Fiber Optics"
  else if jsIncludes desc "tool" then "Tools"
  else if jsIncludes desc "bracket" || jsIncludes desc "mount" then "Mounting Hardware"
  else if jsIncludes desc "conduit" || jsIncludes desc "raceway" ||
    jsIncludes desc "tray" then "Conduit & Raceways"
  else "Other"

/-- `ProcoreSyncManager.createInventoryItemFromPOLine(lineItem, projectId)`
(lines 1305-1324) combined with the id/timestamp assignment `addItem`
(lines 277-287) performs on it. `Math.floor(lineItem.quantity * 0.2)` is
modelled exactly as ⌊quantity / 5⌋. -/
def createInventoryItemFromPOLine (lineItem : POLineItem) (projectId : String)
    (newId : String) (now : Nat) : LVInventoryItem :=
  { id := newId
    projectId := projectId
    category := determineCategoryFromDescription lineItem.description
    subCategory := ""
    manufacturer := lineItem.manufacturer
    partNumber := lineItem.part_number
    description := lineItem.description
    unitOfMeasure := if lineItem.unit == "" then "Each" else lineItem.unit
    quantityAvailable := lineItem.quantity
    quantityAllocated := 0
    reorderThreshold := Int.fdiv lineItem.quantity 5
    reorderQuantity := lineItem.quantity
    location := "From PO"
    cost := lineItem.unit_cost
    lastUpdated := now }

/-- Body of the per-line-item loop of `syncWithPurchaseOrders`
(lines 1246-1267): a matched record gets a stock-mode quantity adjustment of
`quantity - received_quantity` when the order is Approved/Closed and the
change is positive; an unmatched line under an Approved/Closed order creates
a new record; otherwise nothing changes. The `adjustQuantity` error branch is
dead code: the matched id exists and stock mode never throws. -/
def processLineItem (items : List LVInventoryItem) (po : PurchaseOrder)
    (lineItem : POLineItem) (projectId newId : String) (now : Nat) :
    List LVInventoryItem :=
  match findMatchingInventoryItem items lineItem with
  | some matchedItem =>
    if po.status == "Approved" || po.status == "Closed" then
      let quantityChange := lineItem.quantity - lineItem.received_quantity
      if quantityChange > 0 then
        match adjustQuantity items matchedItem.id quantityChange false now with
        | .ok items2 => items2
        | .error _ => items
      else items
    else items
  | none =>
    if po.status == "Approved" || po.status == "Closed" then
      items ++ [createInventoryItemFromPOLine lineItem projectId newId now]
    else items

/-- Inner line-item loop of `syncWithPurchaseOrders`. Fresh ids for created
records come from the `freshId` stream (the JS uses `Date.now().toString()`);
the counter advances per line item. -/
def syncLineItems (items : List LVInventoryItem) (po : PurchaseOrder)
    (lineItems : List POLineItem) (projectId : String) (freshId : Nat → String)
    (ctr : Nat) (now : Nat) : List LVInventoryItem × Nat :=
  match lineItems with
  | [] => (items, ctr)
  | li :: rest =>
    syncLineItems (processLineItem items po li projectId (freshId ctr) now) po rest
      projectId freshId (ctr + 1) now

/-- `ProcoreSyncManager.syncWithPurchaseOrders` (lines 1230-1281), with the
vendor fetches replaced by the supplied purchase-order list (each order
carrying its line items): non-low-voltage orders are skipped, every other
order's line items are processed in order. The final save and the
touched-record count are not modelled — no claim mentions them. -/
def syncWithPurchaseOrders (items : List LVInventoryItem)
    (purchaseOrders : List PurchaseOrder) (projectId : String)
    (freshId : Nat → String) (ctr : Nat) (now : Nat) :
    List LVInventoryItem × Nat :=
  match purchaseOrders with
  | [] => (items, ctr)
  | po :: rest =>
    if isLowVoltagePO po then
      let next := syncLineItems items po po.lineItems projectId freshId ctr now
      syncWithPurchaseOrders next.1 rest projectId freshId next.2 now
    else
      syncWithPurchaseOrders items rest projectId freshId ctr now

/-- The Closed "Cable" purchase order of C3's scenario: one line item,
quantity 10, received quantity 2, no part number, description "Cat6 cable". -/
def cablePO : PurchaseOrder :=
  { id := "po1", title := "Cable order", description := "", status := "Closed"
    lineItems := [{ description := "Cat6 cable", part_number := "", manufacturer := ""
                    quantity := 10, received_quantity := 2, unit := "", unit_cost := 0 }] }

/-- C3: reconciling `cablePO` against an empty store creates exactly one
record, with `quantityAvailable = 10` (the full line quantity — received
quantity plays no role on creation), category "Cable", and
`reorderThreshold = 2 = ⌊10 · 0.2⌋`. -/
theorem C3_sync_creates_record :
    (syncWithPurchaseOrders [] [cablePO] "p" (fun n => toString n) 0 3).1 =
      [{ id := "0", projectId := "p", category := "Cable", subCategory := ""
         manufacturer := "", partNumber := "", description := "Cat6 cable"
         unitOfMeasure := "Each", quantityAvailable := 10, quantityAllocated := 0
         reorderThreshold := 2, reorderQuantity := 10, location := "From PO"
         cost := 0, lastUpdated := 3 }] := by
  decide

/-- The reconciliation matching rule as the spec words it, stated
propositionally: (a) the line item has a non-empty part number equal to the
record's part number; or (b) the record's lower-cased description contains
the line item's lower-cased description as a substring. Compared against the
code's `matchesLine` / `findMatchingInventoryItem`. -/
def matchesLineSpec (lineItem : POLineItem) (item : LVInventoryItem) : Prop :=
  (lineItem.part_number ≠ "" ∧ item.partNumber = lineItem.part_number) ∨
    ∃ u v, (jsToLower item.description).data =
      u ++ (jsToLower lineItem.description).data ++ v

theorem matchesLine_iff (lineItem : POLineItem) (item : LVInventoryItem) :
    matchesLine lineItem item = true ↔ matchesLineSpec lineItem item := by
  simp [matchesLine, matchesLineSpec, jsIncludes, occursIn_iff, bne_iff_ne]

/-- `List.find?` returns exactly the first element satisfying the predicate:
position-indexed characterization. -/
theorem find?_eq_some_iff_first {α : Type} (p : α → Bool) (l : List α) (x : α) :
    l.find? p = some x ↔
      ∃ i : Nat, l.get? i = some x ∧ p x = true ∧
        ∀ j (y : α), j < i → l.get? j = some y → p y = false := by
  induction l with
  | nil => simp [List.find?]
  | cons a l ih =>
    cases hpa : p a with
    | true =>
      rw [List.find?_cons_of_pos _ hpa]
      constructor
      · rintro h
        injection h with h
        subst h
        exact ⟨0, rfl, hpa, fun j y hj _ => absurd hj (Nat.not_lt_zero j)⟩
      · rintro ⟨i, hget, hpx, hfirst⟩
        cases i with
        | zero =>
          injection hget with hget
          subst hget
          rfl
        | succ i =>
          have := hfirst 0 a (Nat.succ_pos i) rfl
          rw [hpa] at this
          exact absurd this (by simp)
    | false =>
      rw [List.find?_cons_of_neg _ (by simp [hpa])]
      rw [ih]
      constructor
      · rintro ⟨i, hget, hpx, hfirst⟩
        refine ⟨i + 1, hget, hpx, ?_⟩
        intro j y hj hgety
        cases j with
        | zero =>
          injection hgety with hgety
          subst hgety
          exact hpa
        | succ j => exact hfirst j y (Nat.lt_of_succ_lt_succ hj) hgety
      · rintro ⟨i, hget, hpx, hfirst⟩
        cases i with
        | zero =>
          injection hget with hget
          subst hget
          rw [hpa] at hpx
          exact absurd hpx (by simp)
        | succ i =>
          exact ⟨i, hget, hpx, fun j y hj hgety =>
            hfirst (j + 1) y (Nat.succ_lt_succ hj) hgety⟩

/-- C4: the matcher returns `r` exactly when `r` sits at some position `i` of
the record list, `r` satisfies the spec's rule (a)∨(b), and no record at an
earlier position satisfies it — a linear scan in insertion order, first match
wins. -/
theorem C4_matcher_first_match (lineItem : POLineItem)
    (items : List LVInventoryItem) (r : LVInventoryItem) :
    findMatchingInventoryItem items lineItem = some r ↔
      ∃ i : Nat, items.get? i = some r ∧ matchesLineSpec lineItem r ∧
        ∀ j y, j < i → items.get? j = some y → ¬ matchesLineSpec lineItem y := by
  rw [findMatchingInventoryItem, find?_eq_some_iff_first]
  constructor
  · rintro ⟨i, hget, hp, hfirst⟩
    refine ⟨i, hget, (matchesLine_iff _ _).mp hp, ?_⟩
    intro j y hj hgety hspec
    have h1 := hfirst j y hj hgety
    rw [(matchesLine_iff _ _).mpr hspec] at h1
    exact absurd h1 (by simp)
  · rintro ⟨i, hget, hp, hfirst⟩
    refine ⟨i, hget, (matchesLine_iff _ _).mpr hp, ?_⟩
    intro j y hj hgety
    cases hcase : matchesLine lineItem y with
    | false => rfl
    | true => exact absurd ((matchesLine_iff _ _).mp hcase) (hfirst j y hj hgety)

/-- C9: a purchase-order line item whose part number is absent and whose
description is the empty string matches the first record of any non-empty
store (every description contains the empty string as a substring), so the
sync loop applies the line item's quantity change — stock mode, by
`quantity - received_quantity`, when the order status and sign allow it — to
the store's first record and never creates a new one. -/
theorem C9_empty_line_matches_first (x : LVInventoryItem)
    (rest : List LVInventoryItem) (lineItem : POLineItem) (po : PurchaseOrder)
    (projectId newId : String) (now : Nat)
    (hpn : lineItem.part_number = "") (hd : lineItem.description = "") :
    findMatchingInventoryItem (x :: rest) lineItem = some x ∧
    ∃ x2, processLineItem (x :: rest) po lineItem projectId newId now = x2 :: rest ∧
      (x2 = x ∨
        adjustItem x (lineItem.quantity - lineItem.received_quantity) false now = .ok x2) := by
  have h0 : jsToLower "" = "" := rfl
  have hmatch : matchesLine lineItem x = true := by
    rw [matchesLine, hd]
    simp [h0, jsIncludes_empty]
  have hfind : findMatchingInventoryItem (x :: rest) lineItem = some x := by
    rw [findMatchingInventoryItem]
    exact List.find?_cons_of_pos _ hmatch
  refine ⟨hfind, ?_⟩
  simp only [processLineItem, hfind]
  by_cases hst : (po.status == "Approved" || po.status == "Closed") = true
  · rw [if_pos hst]
    by_cases hqc : lineItem.quantity - lineItem.received_quantity > 0
    · rw [if_pos hqc]
      obtain ⟨y, hy⟩ :
          ∃ y, adjustItem x (lineItem.quantity - lineItem.received_quantity) false now =
            .ok y := ⟨_, rfl⟩
      have hadj : adjustQuantity (x :: rest) x.id
          (lineItem.quantity - lineItem.received_quantity) false now = .ok (y :: rest) := by
        simp only [adjustQuantity, beq_self_eq_true, if_true, hy, Except.map]
      rw [hadj]
      exact ⟨y, rfl, Or.inr hy⟩
    · rw [if_neg hqc]
      exact ⟨x, rfl, Or.inl rfl⟩
  · rw [if_neg hst]
    exact ⟨x, rfl, Or.inl rfl⟩

/-- The part-number-less, description-less line item of C9's witness. -/
def emptyLine : POLineItem :=
  { description := "", part_number := "", manufacturer := "", quantity := 4
    received_quantity := 1, unit := "", unit_cost := 0 }

theorem C9_witness :
    emptyLine.part_number = "" ∧ emptyLine.description = "" ∧
    (findMatchingInventoryItem [itemB] emptyLine = some itemB ∧
      ∃ x2, processLineItem [itemB] cablePO emptyLine "p" "9" 4 = x2 :: [] ∧
        (x2 = itemB ∨
          adjustItem itemB (emptyLine.quantity - emptyLine.received_quantity) false 4 =
            .ok x2)) :=
  ⟨rfl, rfl, C9_empty_line_matches_first itemB [] emptyLine cablePO "p" "9" 4 rfl rfl⟩

end SCK
